import Mathlib

/-!
Shallow embedding of cherentrace (src/cherentrace/cherentrace.py).

The particle table is modelled as a list of rows keyed by their original
ingestion position (the pandas integer index, which survives the
drop-duplicates pass with gaps).  Floating-point record fields are modelled
as rationals; the angle arithmetic of the level-offset calculator is
modelled over the reals.  Python expressions that can raise (out-of-range
numpy indexing, missing companion data) are modelled with Option: a result
of none corresponds to the Python call raising.
-/

/-- One raw record of the obslev-particles block, before decoding
(fields touched by get_particles: particle_id, cx, cy, x, y, time,
momentum). -/
structure RawRow where
  particle_id : Int
  cx : ℚ
  cy : ℚ
  x : ℚ
  y : ℚ
  time : ℚ
  momentum : ℚ
deriving DecidableEq

/-- One row of the decoded particle table.  The cz column (a real-valued
derived quantity, see czOf below) is kept outside the record because no
later pass of get_particles reads it back. -/
structure Row where
  particle_id : Int
  cx : ℚ
  cy : ℚ
  x : ℚ
  y : ℚ
  time : Option ℚ
  momentum : ℚ
  z : Option ℚ
  obs_level : Int
  fate_index : Int
  generation : Int
  is_muon : Bool
deriving DecidableEq

/-- Line 202: the downward direction cosine cz = -sqrt(1 - cx^2 - cy^2). -/
noncomputable def czOf (cx cy : ℚ) : ℝ := -Real.sqrt (1 - (cx : ℝ) ^ 2 - (cy : ℝ) ^ 2)

/-- Option-valued mapM over lists, written structurally: the first element
on which f fails makes the whole traversal fail (a Python exception
aborting a vectorised pandas assignment). -/
def optionMapM {α : Type u} {β : Type v} (f : α → Option β) : List α → Option (List β)
  | [] => some []
  | a :: l => do
    let b ← f a
    let l2 ← optionMapM f l
    some (b :: l2)

/-- Numpy indexing of a one-dimensional array by an integer: negative
indices wrap once from the end, anything still out of range raises
(modelled as none). -/
def npGet (l : List ℚ) (i : Int) : Option ℚ :=
  if i < 0 then
    if i + l.length < 0 then none else l.get? (i + l.length).toNat
  else l.get? i.toNat

/-- Line 207: generation_raw = code mod 1000 (python % is Euclidean for a
positive modulus, matching Int.emod). -/
def decodeGenRaw (code : Int) : Int := code % 1000

/-- Line 208: species id = (code - generation_raw) / 1000 (the division is
exact, so the rounding mode is irrelevant). -/
def decodeSpeciesId (code : Int) : Int := (code - decodeGenRaw code) / 1000

/-- Lines 215 and 240: the low decimal digit of generation_raw. -/
def lowDigit (g : Int) : Int := g % 10

/-- Lines 216 and 241: the remaining high part of generation_raw, computed
from the unmasked low digit. -/
def highPart (g : Int) : Int := (g - g % 10) / 10

/-- Lines 215-217: the observation level of a Standard row, with the
digit 0 reinterpreted as level 10. -/
def stdObsLevel (g : Int) : Int := if lowDigit g = 0 then 10 else lowDigit g

/-- Lines 200-208: unit conversion of x and y, initialisation of the z,
obs_level, fate_index columns and the raw particle_id / generation split,
applied to one surviving raw record. -/
def initRow (r : RawRow) : Row :=
  { particle_id := decodeSpeciesId r.particle_id
    cx := r.cx
    cy := r.cy
    x := r.x / 100
    y := r.y / 100
    time := some r.time
    momentum := r.momentum
    z := none
    obs_level := -1
    fate_index := -1
    generation := decodeGenRaw r.particle_id
    is_muon := false }

/-- Lines 197-199: the drop_duplicates subset key (cx, cy, momentum, time). -/
def dedupKey (r : RawRow) : ℚ × ℚ × ℚ × ℚ := (r.cx, r.cy, r.momentum, r.time)

/-- Keep-first deduplication over the indexed raw rows: a row is kept when
no earlier kept-or-seen row had the same subset key. -/
def dropDuplicatesAux (seen : List (ℚ × ℚ × ℚ × ℚ)) : List (Nat × RawRow) → List (Nat × RawRow)
  | [] => []
  | e :: rest =>
    if dedupKey e.2 ∈ seen then dropDuplicatesAux seen rest
    else e :: dropDuplicatesAux (dedupKey e.2 :: seen) rest

/-- Lines 197-199: pandas drop_duplicates (keep first) on the indexed rows;
surviving rows keep their original integer index. -/
def dropDuplicates (l : List (Nat × RawRow)) : List (Nat × RawRow) := dropDuplicatesAux [] l

/-- Line 214: the Standard species-id range (0 < id < 75 or id > 100). -/
def isStdId (pid : Int) : Bool := decide ((0 < pid ∧ pid < 75) ∨ 100 < pid)

/-- Lines 214-222: decoding of one Standard row: split generation_raw into
generation and observation level, subtract the per-level offsets from x, y
and set z from the level altitudes.  An out-of-range level index raises in
numpy, hence the Option. -/
def stdUpdate (zlev xoff yoff : List ℚ) (r : Row) : Option Row :=
  if isStdId r.particle_id then do
    let lvl := stdObsLevel r.generation
    let gen := highPart r.generation
    let a ← npGet xoff (lvl - 1)
    let b ← npGet yoff (lvl - 1)
    let zv ← npGet zlev (lvl - 1)
    some { r with obs_level := lvl, generation := gen,
                  x := r.x - a, y := r.y - b, z := some zv }
  else some r

/-- Keyed fallible column update over the whole table. -/
def tableMapM (f : Row → Option Row) (df : List (Nat × Row)) : Option (List (Nat × Row)) :=
  optionMapM (fun e => (f e.2).map (fun r => (e.1, r))) df

/-- Keyed total column update over the whole table. -/
def tableMap (f : Row → Row) (df : List (Nat × Row)) : List (Nat × Row) :=
  df.map (fun e => (e.1, f e.2))

/-- Lines 224-226: for 75 <= id <= 96 the time field is really a height in
centimeters; it is moved to z (in meters) and time becomes NaN (none). -/
def addiUpdate (r : Row) : Row :=
  if 75 ≤ r.particle_id ∧ r.particle_id ≤ 96 then
    { r with z := r.time.map (fun t => t / 100), time := none }
  else r

/-- Lines 30-35: the companion species id expected one row after a given
additional-muon species id; any other id raises (none). -/
def expectedPid (pid : Int) : Option Int :=
  if pid = 75 ∨ pid = 76 then some (pid - 70)
  else if pid = 85 ∨ pid = 86 then some (pid + 10)
  else none

/-- Row lookup by original index (pandas .loc on the integer index). -/
def findRow (df : List (Nat × Row)) (i : Nat) : Option Row :=
  (df.find? (fun e => e.1 == i)).map (fun e => e.2)

/-- Lines 37-45: the birth rows of the given species whose following row
(original index + 1) exists and has the expected companion id, paired with
that companion row.  The first component of each entry is keep_idx of the
source and the second component is the matching keep_vals row. -/
def pairKeep (df : List (Nat × Row)) (pid exp : Int) : List (Nat × Row) :=
  df.filterMap (fun e =>
    if e.2.particle_id = pid then
      match findRow df (e.1 + 1) with
      | some c => if c.particle_id = exp then some (e.1, c) else none
      | none => none
    else none)

/-- Lines 46-53: drop_idx, the companion positions (original index + 1) of
birth rows whose companion is missing from the table or has the wrong
species id; these are the identifiers printed in the warning. -/
def pairDrop (df : List (Nat × Row)) (pid exp : Int) : List Nat :=
  df.filterMap (fun e =>
    if e.2.particle_id = pid then
      match findRow df (e.1 + 1) with
      | some c => if c.particle_id = exp then none else some (e.1 + 1)
      | none => some (e.1 + 1)
    else none)

/-- Lines 18-60 (_find_paired_data): keep pairs and drop indices for one
additional-muon species id; keep_idx and keep_vals of the source are the
two projections of the first component. -/
def findPairedData (df : List (Nat × Row)) (pid : Int) : Option (List (Nat × Row) × List Nat) :=
  (expectedPid pid).map (fun exp => (pairKeep df pid exp, pairDrop df pid exp))

/-- Lines 232-236 applied to one row: if the row is one of the matched
birth rows, copy the companion observation level and subtract that level's
offsets from x and y; all other rows are left untouched.  Nothing is done
with the dropped indices, mirroring the source, so unmatched birth rows
stay in the table. -/
def pairUpdate (xoff yoff : List ℚ) (keep : List (Nat × Row)) (e : Nat × Row) : Option (Nat × Row) :=
  match findRow keep e.1 with
  | none => some e
  | some c => do
    let a ← npGet xoff (c.obs_level - 1)
    let b ← npGet yoff (c.obs_level - 1)
    some (e.1, { e.2 with obs_level := c.obs_level, x := e.2.x - a, y := e.2.y - b })

/-- Lines 230-236: one iteration of the pairing loop for one species id. -/
def pairPhase (xoff yoff : List ℚ) (pid : Int) (df : List (Nat × Row)) :
    Option (List (Nat × Row)) := do
  let fp ← findPairedData df pid
  optionMapM (pairUpdate xoff yoff fp.1) df

/-- Lines 238-243: decoding of the muon-fate rows (id 95 or 96); the
generation_raw value splits into generation and fate_index. -/
def fateUpdate (r : Row) : Row :=
  if 95 ≤ r.particle_id ∧ r.particle_id ≤ 96 then
    { r with fate_index := lowDigit r.generation, generation := highPart r.generation }
  else r

/-- Line 249: the species ids flagged as muons in the particle table. -/
def muonIds : List Int := [5, 6, 75, 76, 85, 86, 95, 96]

/-- Lines 248-249: is_muon of the particle decoder. -/
def particleIsMuon (pid : Int) : Bool := decide (pid ∈ muonIds)

/-- Lines 248-249 applied to one row. -/
def muonUpdate (r : Row) : Row := { r with is_muon := particleIsMuon r.particle_id }

/-- Lines 230-249: everything get_particles does after the
additional-muon-info branch: the pairing loop for id 75 then id 76, the
fate split and the muon flag. -/
def postPhases (xoff yoff : List ℚ) (df : List (Nat × Row)) : Option (List (Nat × Row)) := do
  let d1 ← pairPhase xoff yoff 75 df
  let d2 ← pairPhase xoff yoff 76 d1
  some (tableMap muonUpdate (tableMap fateUpdate d2))

/-- Lines 196-222: indexing, deduplication, per-row decoding and the
Standard-row branch. -/
def decodePhase (zlev xoff yoff : List ℚ) (raw : List RawRow) : Option (List (Nat × Row)) := do
  let indexed := (List.range raw.length).zip raw
  let deduped := dropDuplicates indexed
  let df0 := deduped.map (fun e => (e.1, initRow e.2))
  tableMapM (stdUpdate zlev xoff yoff) df0

/-- Lines 196-252 (get_particles), abstracted over the level altitudes and
offsets already read from the run configuration; the final column
reordering permutes record fields and is not observable on a record type. -/
def buildParticles (zlev xoff yoff : List ℚ) (raw : List RawRow) : Option (List (Nat × Row)) := do
  let d1 ← decodePhase zlev xoff yoff raw
  postPhases xoff yoff (tableMap addiUpdate d1)

/-- Degrees to radians, as astropy does before the trigonometry. -/
noncomputable def degToRad (d : ℝ) : ℝ := d * (Real.pi / 180)

/-- Lines 62-71 (_get_obslev_offsets): tan(90 deg - alt) scaled by the
height of each level above the lowest one, projected on the azimuth; the
minus sign on x is the source's deliberate handedness correction.
Indexing obslevs[-1] of an empty level list raises (none). -/
noncomputable def getObslevOffsets (obslevs : List ℝ) (altDeg azDeg : ℝ) :
    Option (List ℝ × List ℝ) :=
  match obslevs.getLast? with
  | none => none
  | some ref =>
    let tanth := Real.tan (degToRad (90 - altDeg))
    some (obslevs.map (fun l => -1 * ((l - ref) * tanth * Real.cos (degToRad azDeg))),
          obslevs.map (fun l => (l - ref) * tanth * Real.sin (degToRad azDeg)))

/-- Python str.split(sep) with a one-character separator: splitting the
empty text gives one empty field, separators at the ends give empty
fields. -/
def splitOnChar (sep : Char) : List Char → List (List Char)
  | [] => [[]]
  | c :: rest =>
    if c = sep then [] :: splitOnChar sep rest
    else
      match splitOnChar sep rest with
      | [] => [[c]]
      | w :: ws => (c :: w) :: ws

/-- Accumulating decimal digit reader; any non-digit character fails. -/
def digitsValAux (acc : Nat) : List Char → Option Nat
  | [] => some acc
  | c :: rest => if c.isDigit then digitsValAux (acc * 10 + (c.toNat - 48)) rest else none

/-- Split a word at the first occurrence of sep, reporting whether sep was
present. -/
def splitFirst (sep : Char) : List Char → List Char × Option (List Char)
  | [] => ([], none)
  | c :: rest =>
    if c = sep then ([], some rest)
    else
      let p := splitFirst sep rest
      (c :: p.1, p.2)

/-- Optional leading sign of a numeric literal. -/
def parseSign : List Char → Int × List Char
  | '-' :: rest => (-1, rest)
  | '+' :: rest => (1, rest)
  | w => (1, w)

/-- Decimal mantissa of a Python float literal: digits with an optional
decimal point; at least one digit must be present. -/
def parseMantissa (w : List Char) : Option ℚ :=
  match splitFirst '.' w with
  | (ip, none) =>
    if ip = [] then none else (digitsValAux 0 ip).map (fun n => (n : ℚ))
  | (ip, some fp) =>
    if ip = [] ∧ fp = [] then none
    else do
      let n ← digitsValAux 0 ip
      let f ← digitsValAux 0 fp
      some ((n : ℚ) + (f : ℚ) / (10 : ℚ) ^ fp.length)

/-- Python float() on a word of the configuration (finite decimal literals
with optional sign and exponent, which is all a CORSIKA OBSLEV value can
be); an unparsable word raises ValueError (none). -/
def parseFloat? (w : List Char) : Option ℚ :=
  let s := parseSign w
  match splitFirst 'e' (s.2.map Char.toLower) with
  | (mant, none) => (parseMantissa mant).map (fun m => s.1 * m)
  | (mant, some ex) => do
    let m ← parseMantissa mant
    let es := parseSign ex
    if es.2 = [] then none
    else do
      let en ← digitsValAux 0 es.2
      some ((s.1 : ℚ) * m * (10 : ℚ) ^ (es.1 * (en : Int)))

/-- Line 75: the input card cut into lines (comment lines starting with
the marker and empty lines removed), each line cut into nonempty words. -/
def cardWordlines (card : List Char) : List (List (List Char)) :=
  ((splitOnChar '\n' card).filter (fun l => l ≠ [] ∧ l.head? ≠ some '*')).map
    (fun l => (splitOnChar ' ' l).filter (fun w => w ≠ []))

/-- The OBSLEV keyword. -/
def obslevWord : List Char := ['O', 'B', 'S', 'L', 'E', 'V']

/-- Stable insertion into an ascending list. -/
def insertSorted (q : ℚ) : List ℚ → List ℚ
  | [] => [q]
  | a :: rest => if q < a then q :: a :: rest else a :: insertSorted q rest

/-- Python sorted() on rationals (ascending). -/
def sortAsc (l : List ℚ) : List ℚ := l.foldl (fun acc q => insertSorted q acc) []

/-- Lines 73-79 (get_corsika_obslevs): collect every OBSLEV value of the
input card, convert centimeters to meters, sort ascending and flip so that
index 0 is the highest level.  A missing or unparsable value raises
(none); a card without OBSLEV lines yields the empty list. -/
def getCorsikaObslevs (card : List Char) : Option (List ℚ) := do
  let ls := (cardWordlines card).filter (fun l => l.head? = some obslevWord)
  let vals ← optionMapM (fun l => do
      let w ← l.get? 1
      let v ← parseFloat? w
      some (v / 100)) ls
  some (sortAsc vals).reverse

/-- Lines 154-155: the species ids the photon table builder flags as
muons when emitter data is present. -/
def emitterMuonIds : List Int := [5, 6]

/-- Lines 154-155: is_muon of the photon table builder. -/
def emitterIsMuon (pid : Int) : Bool := decide (pid ∈ emitterMuonIds)

/-- Line 161: the fixed positional column order used when no emitter data
is present. -/
def newColOrderNoEmitter : List Nat := [0, 1, 8, 9, 2, 3, 5, 4, 6, 7]

/-- Line 163: the fixed positional column order used when emitter data is
present. -/
def newColOrderWithEmitter : List Nat := [0, 1, 8, 9, 2, 3, 10, 11, 5, 4, 6, 7, 12, 13, 14, 15, 16]

/-- Lines 120-138: the telescope-frame branch appends the alt and az
columns after the base photon columns; nothing else changes the column
list. -/
def photonFrameCols (toTel : Bool) (base : List String) : List String :=
  if toTel then base ++ ["alt", "az"] else base

/-- Lines 112-165 at the level of column positions: the final positional
reordering df.columns[new_col_order]; a position beyond the column count
raises IndexError (none). -/
def getPhotonsColumnOrder (toTel hasEmitter : Bool) (base emitterCols : List String) :
    Option (List String) :=
  let cols := photonFrameCols toTel base ++ (if hasEmitter then emitterCols else [])
  optionMapM (fun i => cols.get? i) (if hasEmitter then newColOrderWithEmitter else newColOrderNoEmitter)

/-- Modelled from the spec: the Standard-class encoding of section 8,
code = species_id*1000 + generation*10 + (obs_level mod 10, with 10 mapped
to 0); the mapping 10 to 0 is exactly mod 10 on levels 1..10. -/
def specEncodeStd (sid gen lvl : Int) : Int := sid * 1000 + gen * 10 + lvl % 10

/-- The row facts that hold from the decode phase up to just before the
fate split: nonnegative generation, untouched fate_index, and an
undetermined level for every species that is neither Standard nor a
matched birth id. -/
def PairedInv (r : Row) : Prop :=
  0 ≤ r.generation ∧ r.fate_index = -1 ∧
  ((isStdId r.particle_id = false ∧ r.particle_id ≠ 75 ∧ r.particle_id ≠ 76) →
    r.obs_level = -1)

/-- The row facts that hold of the finished table. -/
def FinalInv (r : Row) : Prop :=
  0 ≤ r.generation ∧
  ((isStdId r.particle_id = false ∧ r.particle_id ≠ 75 ∧ r.particle_id ≠ 76) →
    r.obs_level = -1) ∧
  (¬(95 ≤ r.particle_id ∧ r.particle_id ≤ 96) → r.fate_index = -1)

/-! ## Theorems -/

/-- C2: the Standard-class decode round-trip as the spec states it fails
for generations of three or more digits: encoding (species 1,
generation 100, level 1) gives code 2001, which decodes to species 2 with
generation 0, not back to the original triple. -/
theorem C2_counterexample :
    specEncodeStd 1 100 1 = 2001 ∧
    decodeSpeciesId (specEncodeStd 1 100 1) = 2 ∧
    highPart (decodeGenRaw (specEncodeStd 1 100 1)) = 0 := by
  decide

/-- C2 (amended): for Standard species ids, generations 0..99 and levels
1..10 (including the ten-level special case), decoding the encoded code
recovers the triple exactly. -/
theorem C2_roundTrip (sid gen lvl : Int)
    (hsid : (0 < sid ∧ sid < 75) ∨ 100 < sid)
    (hg0 : 0 ≤ gen) (hg9 : gen ≤ 99)
    (hl1 : 1 ≤ lvl) (hl10 : lvl ≤ 10) :
    decodeSpeciesId (specEncodeStd sid gen lvl) = sid ∧
    stdObsLevel (decodeGenRaw (specEncodeStd sid gen lvl)) = lvl ∧
    highPart (decodeGenRaw (specEncodeStd sid gen lvl)) = gen := by
  unfold specEncodeStd decodeSpeciesId decodeGenRaw stdObsLevel lowDigit highPart
  refine ⟨by omega, ?_, by omega⟩
  split <;> omega

/-- C2 witness: the round-trip at species 6, generation 2, level 10 (the
level digit encodes as 0 and decodes back to 10). -/
theorem C2_roundTrip_witness :
    decodeSpeciesId (specEncodeStd 6 2 10) = 6 ∧
    stdObsLevel (decodeGenRaw (specEncodeStd 6 2 10)) = 10 ∧
    highPart (decodeGenRaw (specEncodeStd 6 2 10)) = 2 :=
  C2_roundTrip 6 2 10 (Or.inl (by decide)) (by decide) (by decide) (by decide) (by decide)

/-- C8: the photon table builder does not use the particle decoder's
muon rule: species 75 is a muon for the particle decoder (line 249) but
not for the photon emitter flag (line 155). -/
theorem C8_counterexample :
    emitterIsMuon 75 = false ∧ particleIsMuon 75 = true := by
  decide

/-- C8 (amended): the photon table's is_muon flag is true exactly for
emitter species 5 and 6; it agrees with the particle decoder's rule only
away from the additional-muon ids 75, 76, 85, 86, 95, 96, where the
photon builder reports false and the particle decoder true. -/
theorem C8_emitterMuonAgreement (pid : Int)
    (h : pid ∉ ([75, 76, 85, 86, 95, 96] : List Int)) :
    (emitterIsMuon pid = true ↔ pid = 5 ∨ pid = 6) ∧
    emitterIsMuon pid = particleIsMuon pid := by
  simp only [List.mem_cons, List.not_mem_nil, or_false, not_or] at h
  constructor
  · unfold emitterIsMuon emitterMuonIds
    simp [List.mem_cons]
  · unfold emitterIsMuon particleIsMuon emitterMuonIds muonIds
    rw [decide_eq_decide]
    simp only [List.mem_cons, List.not_mem_nil, or_false]
    tauto

/-- C8 witness: agreement at species 6. -/
theorem C8_emitterMuonAgreement_witness :
    ((emitterIsMuon 6 = true ↔ (6 : Int) = 5 ∨ (6 : Int) = 6) ∧
     emitterIsMuon 6 = particleIsMuon 6) :=
  C8_emitterMuonAgreement 6 (by decide)

/-- C9 (confirmed): for a shower arriving at zenith (altitude 90 degrees)
every computed x and y offset is zero, for every level list and every
azimuth. -/
theorem C9_zenithOffsetsZero (obslevs : List ℝ) (azDeg : ℝ) (xs ys : List ℝ)
    (h : getObslevOffsets obslevs 90 azDeg = some (xs, ys)) :
    (∀ v ∈ xs, v = 0) ∧ (∀ v ∈ ys, v = 0) := by
  unfold getObslevOffsets at h
  cases hl : obslevs.getLast? with
  | none => rw [hl] at h; simp at h
  | some ref =>
    rw [hl] at h
    simp only [Option.some.injEq, Prod.mk.injEq] at h
    obtain ⟨hx, hy⟩ := h
    have ht : Real.tan (degToRad (90 - 90)) = 0 := by
      norm_num [degToRad]
    subst hx
    subst hy
    constructor <;> intro v hv <;> simp only [List.mem_map] at hv <;>
      obtain ⟨l, _, rfl⟩ := hv <;> rw [ht] <;> ring

/-- C9 witness: a two-level list at zenith with azimuth 37 degrees. -/
theorem C9_zenithOffsetsZero_witness :
    ∃ xs ys, getObslevOffsets [10, 5] 90 37 = some (xs, ys) ∧
      (∀ v ∈ xs, v = 0) ∧ (∀ v ∈ ys, v = 0) :=
  ⟨_, _, rfl, (C9_zenithOffsetsZero [10, 5] 37 _ _ rfl).1,
    (C9_zenithOffsetsZero [10, 5] 37 _ _ rfl).2⟩

/-- C10 (confirmed): with the eight baseline photon columns, the fixed
positional reordering of the no-emitter branch indexes positions 8 and 9,
which exist only when the telescope-frame branch appended alt and az: the
camera-frame call (to_telescope_frame = False, no emitter) raises, while
the telescope-frame call succeeds. -/
theorem C10_cameraFrameReorderRaises (base : List String) (hb : base.length = 8) :
    getPhotonsColumnOrder false false base [] = none ∧
    (getPhotonsColumnOrder true false base []).isSome = true := by
  rcases base with _ | ⟨a0, _ | ⟨a1, _ | ⟨a2, _ | ⟨a3, _ | ⟨a4, _ |
    ⟨a5, _ | ⟨a6, _ | ⟨a7, _ | ⟨a8, t⟩⟩⟩⟩⟩⟩⟩⟩⟩
  all_goals simp only [List.length_cons, List.length_nil] at hb
  all_goals first
    | exact ⟨rfl, rfl⟩
    | omega

/-- C10 witness: the concrete simtel photon-bunch column list. -/
theorem C10_cameraFrameReorderRaises_witness :
    (["x", "y", "cx", "cy", "time", "zem", "pixel_id", "wavelength"] : List String).length = 8 ∧
    getPhotonsColumnOrder false false
      ["x", "y", "cx", "cy", "time", "zem", "pixel_id", "wavelength"] [] = none :=
  ⟨rfl, (C10_cameraFrameReorderRaises
    ["x", "y", "cx", "cy", "time", "zem", "pixel_id", "wavelength"] rfl).1⟩

/-- C7: a configuration with no OBSLEV entries does not fail: the level
registry returns the empty level set instead of raising. -/
theorem C7_counterexample :
    getCorsikaObslevs ("RUNNR 1\nTHETAP 0. 0.".toList) ≠ none ∧
    getCorsikaObslevs ("RUNNR 1\nTHETAP 0. 0.".toList) = some [] := by
  decide

/-- C7 (amended): whenever no parsed configuration line starts with the
OBSLEV keyword, the registry returns the empty level set (no error is
raised). -/
theorem C7_noObslevGivesEmpty (card : List Char)
    (h : ∀ l ∈ cardWordlines card, l.head? ≠ some obslevWord) :
    getCorsikaObslevs card = some [] := by
  unfold getCorsikaObslevs
  have hfil : (cardWordlines card).filter (fun l => l.head? = some obslevWord) = [] := by
    rw [List.filter_eq_nil_iff]
    intro l hl
    simpa using h l hl
  rw [hfil]
  rfl

/-- C7 witness: an input card whose only OBSLEV text sits in a comment
line. -/
theorem C7_noObslevGivesEmpty_witness :
    getCorsikaObslevs ("* OBSLEV 220000.\nRUNNR 1".toList) = some [] :=
  C7_noObslevGivesEmpty _ (by decide)

/-! ### General lemmas about the traversal combinators -/

theorem optionMapM_nil {α : Type u} {β : Type v} (f : α → Option β) :
    optionMapM f [] = some [] := rfl

theorem optionMapM_cons {α : Type u} {β : Type v} (f : α → Option β) (a : α) (l : List α) :
    optionMapM f (a :: l) =
      (f a).bind (fun b => (optionMapM f l).bind (fun l2 => some (b :: l2))) := rfl

theorem optionMapM_isSome {α : Type u} {β : Type v} {f : α → Option β} :
    ∀ {l : List α}, (∀ a ∈ l, (f a).isSome = true) → ∃ l2, optionMapM f l = some l2
  | [], _ => ⟨[], rfl⟩
  | a :: l, h => by
    obtain ⟨b, hb⟩ := Option.isSome_iff_exists.mp (h a (List.mem_cons_self a l))
    obtain ⟨l2, hl2⟩ := optionMapM_isSome (fun x hx => h x (List.mem_cons_of_mem a hx))
    exact ⟨b :: l2, by rw [optionMapM_cons, hb, hl2]; rfl⟩

theorem optionMapM_mem {α : Type u} {β : Type v} {f : α → Option β} :
    ∀ {l : List α} {l2 : List β}, optionMapM f l = some l2 → ∀ b ∈ l2, ∃ a ∈ l, f a = some b
  | [], l2, h => by
    rw [optionMapM_nil, Option.some_inj] at h
    subst h
    intro b hb
    exact absurd hb (List.not_mem_nil b)
  | a :: l, l2, h => by
    rw [optionMapM_cons] at h
    cases hfa : f a with
    | none => rw [hfa] at h; simp at h
    | some b0 =>
      rw [hfa] at h
      cases hml : optionMapM f l with
      | none => rw [hml] at h; simp at h
      | some t2 =>
        rw [hml] at h
        simp only [Option.some_bind, Option.some_inj] at h
        subst h
        intro b hb
        rcases List.mem_cons.mp hb with rfl | hb2
        · exact ⟨a, List.mem_cons_self a l, hfa⟩
        · obtain ⟨x, hx, hfx⟩ := optionMapM_mem hml b hb2
          exact ⟨x, List.mem_cons_of_mem a hx, hfx⟩

theorem optionMapM_map_fst {γ δ : Type} {f : (Nat × γ) → Option (Nat × δ)}
    (hf : ∀ e e2, f e = some e2 → e2.1 = e.1) :
    ∀ {l : List (Nat × γ)} {l2 : List (Nat × δ)},
      optionMapM f l = some l2 → l2.map Prod.fst = l.map Prod.fst
  | [], l2, h => by
    rw [optionMapM_nil, Option.some_inj] at h
    subst h
    rfl
  | a :: l, l2, h => by
    rw [optionMapM_cons] at h
    cases hfa : f a with
    | none => rw [hfa] at h; simp at h
    | some b0 =>
      rw [hfa] at h
      cases hml : optionMapM f l with
      | none => rw [hml] at h; simp at h
      | some t2 =>
        rw [hml] at h
        simp only [Option.some_bind, Option.some_inj] at h
        subst h
        simp only [List.map_cons, hf a b0 hfa, optionMapM_map_fst hf hml]

theorem optionMapM_find? {γ : Type} {f : (Nat × γ) → Option (Nat × γ)}
    (hf : ∀ e e2, f e = some e2 → e2.1 = e.1) :
    ∀ {l l2 : List (Nat × γ)}, optionMapM f l = some l2 → ∀ i : Nat,
      l2.find? (fun e => e.1 == i) = (l.find? (fun e => e.1 == i)).bind f
  | [], l2, h, i => by
    rw [optionMapM_nil, Option.some_inj] at h
    subst h
    rfl
  | a :: l, l2, h, i => by
    rw [optionMapM_cons] at h
    cases hfa : f a with
    | none => rw [hfa] at h; simp at h
    | some b0 =>
      rw [hfa] at h
      cases hml : optionMapM f l with
      | none => rw [hml] at h; simp at h
      | some t2 =>
        rw [hml] at h
        simp only [Option.some_bind, Option.some_inj] at h
        subst h
        by_cases hi : a.1 = i
        · rw [List.find?_cons_of_pos _ (by simp [hf a b0 hfa, hi]),
            List.find?_cons_of_pos _ (by simp [hi]), Option.some_bind, hfa]
        · rw [List.find?_cons_of_neg _ (by simp [hf a b0 hfa, hi]),
            List.find?_cons_of_neg _ (by simp [hi])]
          exact optionMapM_find? hf hml i

theorem filterMap_find?_key {γ δ : Type} {g : (Nat × γ) → Option (Nat × δ)}
    (hg : ∀ e p, g e = some p → p.1 = e.1) {l : List (Nat × γ)}
    (hn : (l.map Prod.fst).Nodup) (i : Nat) :
    (l.filterMap g).find? (fun e => e.1 == i) = (l.find? (fun e => e.1 == i)).bind g := by
  induction l with
  | nil => rfl
  | cons a t ih =>
    rw [List.map_cons, List.nodup_cons] at hn
    rw [List.filterMap_cons]
    by_cases hi : a.1 = i
    · rw [List.find?_cons_of_pos _ (by simp [hi]), Option.some_bind]
      cases hga : g a with
      | some p =>
        rw [List.find?_cons_of_pos _ (by simp [hg a p hga, hi])]
      | none =>
        rw [List.find?_eq_none]
        intro p hp
        obtain ⟨e, he, hge⟩ := List.mem_filterMap.mp hp
        have hpe : p.1 = e.1 := hg e p hge
        have : e.1 ∈ t.map Prod.fst := List.mem_map_of_mem Prod.fst he
        simp only [beq_iff_eq, hpe]
        intro hei
        exact hn.1 (by rw [hi, ← hei]; exact this)
    · rw [List.find?_cons_of_neg _ (by simp [hi])]
      cases hga : g a with
      | some p =>
        rw [List.find?_cons_of_neg _ (by simp [hg a p hga, hi])]
        exact ih hn.2
      | none => exact ih hn.2

theorem find?_key_of_mem {γ : Type} {l : List (Nat × γ)}
    (hn : (l.map Prod.fst).Nodup) {e : Nat × γ} (he : e ∈ l) :
    l.find? (fun p => p.1 == e.1) = some e := by
  induction l with
  | nil => exact absurd he (List.not_mem_nil e)
  | cons a t ih =>
    rw [List.map_cons, List.nodup_cons] at hn
    rcases List.mem_cons.mp he with rfl | he2
    · exact List.find?_cons_of_pos _ (by simp)
    · have hne : a.1 ≠ e.1 := by
        intro hc
        exact hn.1 (hc ▸ List.mem_map_of_mem Prod.fst he2)
      rw [List.find?_cons_of_neg _ (by simp [hne])]
      exact ih hn.2 he2

theorem tableMap_map_fst (f : Row → Row) (l : List (Nat × Row)) :
    (tableMap f l).map Prod.fst = l.map Prod.fst := by
  induction l with
  | nil => rfl
  | cons a t ih => simp only [tableMap, List.map_cons] at ih ⊢; rw [ih]

theorem tableMap_find? (f : Row → Row) (l : List (Nat × Row)) (i : Nat) :
    (tableMap f l).find? (fun e => e.1 == i) =
      (l.find? (fun e => e.1 == i)).map (fun e => (e.1, f e.2)) := by
  induction l with
  | nil => rfl
  | cons a t ih =>
    by_cases hi : a.1 = i
    · rw [show tableMap f (a :: t) = (a.1, f a.2) :: tableMap f t from rfl,
        List.find?_cons_of_pos _ (by simp [hi]), List.find?_cons_of_pos _ (by simp [hi])]
      rfl
    · rw [show tableMap f (a :: t) = (a.1, f a.2) :: tableMap f t from rfl,
        List.find?_cons_of_neg _ (by simp [hi]), List.find?_cons_of_neg _ (by simp [hi])]
      exact ih

theorem tableMap_mem {f : Row → Row} {l : List (Nat × Row)} {e : Nat × Row}
    (he : e ∈ tableMap f l) : ∃ a ∈ l, e = (a.1, f a.2) := by
  obtain ⟨a, ha, rfl⟩ := List.mem_map.mp he
  exact ⟨a, ha, rfl⟩

theorem dropDuplicatesAux_sublist (seen : List (ℚ × ℚ × ℚ × ℚ)) :
    ∀ l : List (Nat × RawRow), (dropDuplicatesAux seen l).Sublist l := by
  intro l
  induction l generalizing seen with
  | nil => exact List.Sublist.refl []
  | cons e t ih =>
    rw [dropDuplicatesAux]
    by_cases hm : dedupKey e.2 ∈ seen
    · rw [if_pos hm]
      exact (ih seen).cons e
    · rw [if_neg hm]
      exact (ih (dedupKey e.2 :: seen)).cons₂ e

/-! ### Field-level facts about the row updates -/

theorem highPart_nonneg {g : Int} (h : 0 ≤ g) : 0 ≤ highPart g := by
  unfold highPart
  omega

theorem decodeGenRaw_nonneg (code : Int) : 0 ≤ decodeGenRaw code := by
  unfold decodeGenRaw
  omega

theorem stdUpdate_not_std (zlev xoff yoff : List ℚ) (r : Row)
    (h : isStdId r.particle_id = false) : stdUpdate zlev xoff yoff r = some r := by
  unfold stdUpdate
  rw [h]
  rfl

theorem stdUpdate_std (zlev xoff yoff : List ℚ) (r : Row)
    (h : isStdId r.particle_id = true) :
    stdUpdate zlev xoff yoff r =
      (npGet xoff (stdObsLevel r.generation - 1)).bind (fun a =>
        (npGet yoff (stdObsLevel r.generation - 1)).bind (fun b =>
          (npGet zlev (stdObsLevel r.generation - 1)).bind (fun zv =>
            some { r with obs_level := stdObsLevel r.generation,
                          generation := highPart r.generation,
                          x := r.x - a, y := r.y - b, z := some zv }))) := by
  unfold stdUpdate
  rw [h]
  rfl

theorem stdUpdate_fields {zlev xoff yoff : List ℚ} {r r2 : Row}
    (h : stdUpdate zlev xoff yoff r = some r2) :
    r2.particle_id = r.particle_id ∧ r2.fate_index = r.fate_index ∧
    r2.time = r.time ∧ r2.is_muon = r.is_muon ∧
    (0 ≤ r.generation → 0 ≤ r2.generation) ∧
    (isStdId r.particle_id = false → r2 = r) := by
  cases hstd : isStdId r.particle_id with
  | false =>
    rw [stdUpdate_not_std zlev xoff yoff r hstd, Option.some_inj] at h
    subst h
    exact ⟨rfl, rfl, rfl, rfl, fun hg => hg, fun _ => rfl⟩
  | true =>
    rw [stdUpdate_std zlev xoff yoff r hstd] at h
    cases ha : npGet xoff (stdObsLevel r.generation - 1) with
    | none => rw [ha] at h; simp at h
    | some a =>
      rw [ha, Option.some_bind] at h
      cases hb : npGet yoff (stdObsLevel r.generation - 1) with
      | none => rw [hb] at h; simp at h
      | some b =>
        rw [hb, Option.some_bind] at h
        cases hz : npGet zlev (stdObsLevel r.generation - 1) with
        | none => rw [hz] at h; simp at h
        | some zv =>
          rw [hz, Option.some_bind, Option.some_inj] at h
          subst h
          exact ⟨rfl, rfl, rfl, rfl, fun hg => highPart_nonneg hg,
            fun hc => absurd hc (by decide)⟩

theorem addiUpdate_fields (r : Row) :
    (addiUpdate r).particle_id = r.particle_id ∧ (addiUpdate r).generation = r.generation ∧
    (addiUpdate r).obs_level = r.obs_level ∧ (addiUpdate r).fate_index = r.fate_index ∧
    (addiUpdate r).is_muon = r.is_muon ∧ (addiUpdate r).x = r.x ∧ (addiUpdate r).y = r.y := by
  unfold addiUpdate
  split <;> exact ⟨rfl, rfl, rfl, rfl, rfl, rfl, rfl⟩

theorem fateUpdate_fields (r : Row) :
    (fateUpdate r).particle_id = r.particle_id ∧ (fateUpdate r).obs_level = r.obs_level ∧
    (fateUpdate r).x = r.x ∧ (fateUpdate r).y = r.y ∧ (fateUpdate r).z = r.z ∧
    (0 ≤ r.generation → 0 ≤ (fateUpdate r).generation) ∧
    (¬(95 ≤ r.particle_id ∧ r.particle_id ≤ 96) → fateUpdate r = r) := by
  unfold fateUpdate
  split
  · next hin =>
    exact ⟨rfl, rfl, rfl, rfl, rfl, fun hg => highPart_nonneg hg, fun hc => absurd hin hc⟩
  · exact ⟨rfl, rfl, rfl, rfl, rfl, fun hg => hg, fun _ => rfl⟩

theorem muonUpdate_fields (r : Row) :
    (muonUpdate r).particle_id = r.particle_id ∧ (muonUpdate r).obs_level = r.obs_level ∧
    (muonUpdate r).fate_index = r.fate_index ∧ (muonUpdate r).generation = r.generation ∧
    (muonUpdate r).x = r.x ∧ (muonUpdate r).y = r.y ∧ (muonUpdate r).z = r.z := by
  exact ⟨rfl, rfl, rfl, rfl, rfl, rfl, rfl⟩

theorem pairUpdate_not_matched (xoff yoff : List ℚ) (keep : List (Nat × Row)) (e : Nat × Row)
    (h : findRow keep e.1 = none) : pairUpdate xoff yoff keep e = some e := by
  unfold pairUpdate
  rw [h]

theorem pairUpdate_matched_eq (xoff yoff : List ℚ) (keep : List (Nat × Row)) (e : Nat × Row)
    (c : Row) (h : findRow keep e.1 = some c) :
    pairUpdate xoff yoff keep e =
      (npGet xoff (c.obs_level - 1)).bind (fun a =>
        (npGet yoff (c.obs_level - 1)).bind (fun b =>
          some (e.1, { e.2 with obs_level := c.obs_level,
                                x := e.2.x - a, y := e.2.y - b }))) := by
  unfold pairUpdate
  rw [h]
  rfl

theorem pairUpdate_matched {xoff yoff : List ℚ} {keep : List (Nat × Row)} {e : Nat × Row}
    {c : Row} {a b : ℚ} (hc : findRow keep e.1 = some c)
    (ha : npGet xoff (c.obs_level - 1) = some a) (hb : npGet yoff (c.obs_level - 1) = some b) :
    pairUpdate xoff yoff keep e =
      some (e.1, { e.2 with obs_level := c.obs_level, x := e.2.x - a, y := e.2.y - b }) := by
  rw [pairUpdate_matched_eq xoff yoff keep e c hc, ha, Option.some_bind, hb, Option.some_bind]

theorem pairUpdate_key {xoff yoff : List ℚ} {keep : List (Nat × Row)} {e e2 : Nat × Row}
    (h : pairUpdate xoff yoff keep e = some e2) : e2.1 = e.1 := by
  cases hc : findRow keep e.1 with
  | none =>
    rw [pairUpdate_not_matched xoff yoff keep e hc, Option.some_inj] at h
    subst h
    rfl
  | some c =>
    rw [pairUpdate_matched_eq xoff yoff keep e c hc] at h
    cases ha : npGet xoff (c.obs_level - 1) with
    | none => rw [ha] at h; simp at h
    | some a =>
      rw [ha, Option.some_bind] at h
      cases hb : npGet yoff (c.obs_level - 1) with
      | none => rw [hb] at h; simp at h
      | some b =>
        rw [hb, Option.some_bind, Option.some_inj] at h
        subst h
        rfl

theorem pairUpdate_preserves {xoff yoff : List ℚ} {keep : List (Nat × Row)} {e e2 : Nat × Row}
    (h : pairUpdate xoff yoff keep e = some e2) :
    e2.2.particle_id = e.2.particle_id ∧ e2.2.generation = e.2.generation ∧
    e2.2.fate_index = e.2.fate_index ∧ e2.2.z = e.2.z ∧ e2.2.time = e.2.time ∧
    e2.2.is_muon = e.2.is_muon := by
  cases hc : findRow keep e.1 with
  | none =>
    rw [pairUpdate_not_matched xoff yoff keep e hc, Option.some_inj] at h
    subst h
    exact ⟨rfl, rfl, rfl, rfl, rfl, rfl⟩
  | some c =>
    rw [pairUpdate_matched_eq xoff yoff keep e c hc] at h
    cases ha : npGet xoff (c.obs_level - 1) with
    | none => rw [ha] at h; simp at h
    | some a =>
      rw [ha, Option.some_bind] at h
      cases hb : npGet yoff (c.obs_level - 1) with
      | none => rw [hb] at h; simp at h
      | some b =>
        rw [hb, Option.some_bind, Option.some_inj] at h
        subst h
        exact ⟨rfl, rfl, rfl, rfl, rfl, rfl⟩

/-! ### Pairing-resolution lemmas -/

theorem npGet_nonneg_eq (l : List ℚ) (i : Int) (h : 0 ≤ i) : npGet l i = l.get? i.toNat := by
  unfold npGet
  rw [if_neg (by omega : ¬(i < 0))]

theorem npGet_isSome {l : List ℚ} {lvl : Int} (h1 : 1 ≤ lvl) (h2 : lvl ≤ (l.length : Int)) :
    ∃ a, npGet l (lvl - 1) = some a := by
  rw [npGet_nonneg_eq l (lvl - 1) (by omega)]
  have hlt : (lvl - 1).toNat < l.length := by omega
  exact ⟨l.get ⟨(lvl - 1).toNat, hlt⟩, List.get?_eq_get hlt⟩

theorem findRow_mem {df : List (Nat × Row)} {i : Nat} {c : Row} (h : findRow df i = some c) :
    ∃ e ∈ df, e.1 = i ∧ e.2 = c := by
  unfold findRow at h
  cases hf : df.find? (fun e => e.1 == i) with
  | none => rw [hf] at h; exact absurd h (by simp)
  | some p =>
    rw [hf, Option.map_some'] at h
    refine ⟨p, List.mem_of_find?_eq_some hf, ?_, Option.some_inj.mp h⟩
    have hp := List.find?_some hf
    simpa using hp

theorem pairKeep_findRow {df : List (Nat × Row)} (hn : (df.map Prod.fst).Nodup)
    {e : Nat × Row} (he : e ∈ df) (pid exp : Int) :
    findRow (pairKeep df pid exp) e.1 =
      if e.2.particle_id = pid then
        match findRow df (e.1 + 1) with
        | some c => if c.particle_id = exp then some c else none
        | none => none
      else none := by
  have hg : ∀ (e2 p : Nat × Row),
      (if e2.2.particle_id = pid then
        match findRow df (e2.1 + 1) with
        | some c => if c.particle_id = exp then some (e2.1, c) else none
        | none => none
      else none) = some p → p.1 = e2.1 := by
    intro e2 p h
    by_cases hpid : e2.2.particle_id = pid
    · rw [if_pos hpid] at h
      cases hfr : findRow df (e2.1 + 1) with
      | none => rw [hfr] at h; exact absurd h (by simp)
      | some c =>
        rw [hfr] at h
        dsimp only at h
        by_cases hce : c.particle_id = exp
        · rw [if_pos hce, Option.some_inj] at h
          rw [← h]
        · rw [if_neg hce] at h
          exact absurd h (by simp)
    · rw [if_neg hpid] at h
      exact absurd h (by simp)
  have hfind : (pairKeep df pid exp).find? (fun p => p.1 == e.1) =
      (df.find? (fun p => p.1 == e.1)).bind (fun e2 =>
        if e2.2.particle_id = pid then
          match findRow df (e2.1 + 1) with
          | some c => if c.particle_id = exp then some (e2.1, c) else none
          | none => none
        else none) := by
    unfold pairKeep
    exact filterMap_find?_key hg hn e.1
  rw [show findRow (pairKeep df pid exp) e.1 =
        ((pairKeep df pid exp).find? (fun p => p.1 == e.1)).map (fun p => p.2) from rfl,
    hfind, find?_key_of_mem hn he, Option.some_bind]
  by_cases hpid : e.2.particle_id = pid
  · rw [if_pos hpid, if_pos hpid]
    cases hfr : findRow df (e.1 + 1) with
    | none => rfl
    | some c =>
      dsimp only
      by_cases hce : c.particle_id = exp
      · rw [if_pos hce, if_pos hce]
        rfl
      · rw [if_neg hce, if_neg hce]
        rfl
  · rw [if_neg hpid, if_neg hpid]
    rfl

theorem pairDrop_mem {df : List (Nat × Row)} {e : Nat × Row} (he : e ∈ df) {pid exp : Int}
    (hpid : e.2.particle_id = pid)
    (hbad : (findRow df (e.1 + 1)).map Row.particle_id ≠ some exp) :
    (e.1 + 1) ∈ pairDrop df pid exp := by
  unfold pairDrop
  apply List.mem_filterMap.mpr
  refine ⟨e, he, ?_⟩
  dsimp only
  rw [if_pos hpid]
  cases hfr : findRow df (e.1 + 1) with
  | none => rfl
  | some c =>
    dsimp only
    rw [if_neg (show ¬(c.particle_id = exp) from fun hce =>
      hbad (by rw [hfr, Option.map_some', hce]))]

theorem pairDrop_nil {df : List (Nat × Row)} {pid exp : Int}
    (hall : ∀ e ∈ df, e.2.particle_id = pid →
      (findRow df (e.1 + 1)).map Row.particle_id = some exp) :
    pairDrop df pid exp = [] := by
  unfold pairDrop
  rw [List.filterMap_eq_nil_iff]
  intro e he
  by_cases hpid : e.2.particle_id = pid
  · rw [if_pos hpid]
    have hc := hall e he hpid
    cases hfr : findRow df (e.1 + 1) with
    | none => rw [hfr] at hc; exact absurd hc (by simp)
    | some c =>
      rw [hfr, Option.map_some'] at hc
      dsimp only
      rw [if_pos (Option.some_inj.mp hc)]
  · rw [if_neg hpid]

theorem pairPhase_eq (xoff yoff : List ℚ) (pid exp : Int) (hexp : expectedPid pid = some exp)
    (df : List (Nat × Row)) :
    pairPhase xoff yoff pid df =
      optionMapM (pairUpdate xoff yoff (pairKeep df pid exp)) df := by
  unfold pairPhase findPairedData
  rw [hexp]
  rfl

theorem liftUpdate_key (f : Row → Option Row) :
    ∀ (e e2 : Nat × Row), ((f e.2).map (fun r => (e.1, r))) = some e2 → e2.1 = e.1 := by
  intro e e2 h
  cases hf : f e.2 with
  | none => rw [hf] at h; exact absurd h (by simp)
  | some r =>
    rw [hf, Option.map_some', Option.some_inj] at h
    rw [← h]

theorem tableMapM_eq (f : Row → Option Row) (df : List (Nat × Row)) :
    tableMapM f df = optionMapM (fun e => (f e.2).map (fun r => (e.1, r))) df := rfl

theorem decodePhase_eq (zlev xoff yoff : List ℚ) (raw : List RawRow) :
    decodePhase zlev xoff yoff raw =
      tableMapM (stdUpdate zlev xoff yoff)
        ((dropDuplicates ((List.range raw.length).zip raw)).map
          (fun e => (e.1, initRow e.2))) := rfl

theorem postPhases_eq (xoff yoff : List ℚ) (df : List (Nat × Row)) :
    postPhases xoff yoff df =
      (pairPhase xoff yoff 75 df).bind (fun d1 =>
        (pairPhase xoff yoff 76 d1).bind (fun d2 =>
          some (tableMap muonUpdate (tableMap fateUpdate d2)))) := rfl

theorem buildParticles_eq (zlev xoff yoff : List ℚ) (raw : List RawRow) :
    buildParticles zlev xoff yoff raw =
      (decodePhase zlev xoff yoff raw).bind (fun d1 =>
        postPhases xoff yoff (tableMap addiUpdate d1)) := rfl

theorem expectedPid_75 : expectedPid 75 = some 5 := rfl

theorem expectedPid_76 : expectedPid 76 = some 6 := rfl

/-! ### Phase totality and row invariants -/

theorem isStdId_false_iff (pid : Int) :
    isStdId pid = false ↔ ¬((0 < pid ∧ pid < 75) ∨ 100 < pid) := by
  unfold isStdId
  exact decide_eq_false_iff_not

theorem pairPhase_total (xoff yoff : List ℚ) (pid exp : Int) (hexp : expectedPid pid = some exp)
    (hexp56 : exp = 5 ∨ exp = 6) (df : List (Nat × Row))
    (hn : (df.map Prod.fst).Nodup)
    (hlev : ∀ e ∈ df, (e.2.particle_id = 5 ∨ e.2.particle_id = 6) →
      1 ≤ e.2.obs_level ∧ e.2.obs_level ≤ (xoff.length : Int) ∧
        e.2.obs_level ≤ (yoff.length : Int)) :
    ∃ d2, pairPhase xoff yoff pid df = some d2 := by
  rw [pairPhase_eq xoff yoff pid exp hexp df]
  apply optionMapM_isSome
  intro e he
  cases hc : findRow (pairKeep df pid exp) e.1 with
  | none => rw [pairUpdate_not_matched xoff yoff _ e hc]; rfl
  | some c =>
    have hk := pairKeep_findRow hn he pid exp
    rw [hc] at hk
    by_cases hpp : e.2.particle_id = pid
    · rw [if_pos hpp] at hk
      cases hfr : findRow df (e.1 + 1) with
      | none => rw [hfr] at hk; exact absurd hk (by simp)
      | some c2 =>
        rw [hfr] at hk
        dsimp only at hk
        by_cases hce : c2.particle_id = exp
        · rw [if_pos hce, Option.some_inj] at hk
          obtain ⟨e2, he2, _, he2c⟩ := findRow_mem hfr
          have hce2 : c = e2.2 := hk.trans he2c.symm
          have hb := hlev e2 he2 (by rw [he2c, hce]; exact hexp56)
          have hb2 : 1 ≤ c.obs_level ∧ c.obs_level ≤ (xoff.length : Int) ∧
              c.obs_level ≤ (yoff.length : Int) := by rw [hce2]; exact hb
          obtain ⟨a, ha⟩ := npGet_isSome hb2.1 hb2.2.1
          obtain ⟨b, hbb⟩ := npGet_isSome hb2.1 hb2.2.2
          rw [pairUpdate_matched hc ha hbb]
          rfl
        · rw [if_neg hce] at hk; exact absurd hk (by simp)
    · rw [if_neg hpp] at hk; exact absurd hk (by simp)

theorem pairPhase_map_fst (xoff yoff : List ℚ) (pid exp : Int)
    (hexp : expectedPid pid = some exp) {df d2 : List (Nat × Row)}
    (h : pairPhase xoff yoff pid df = some d2) : d2.map Prod.fst = df.map Prod.fst := by
  rw [pairPhase_eq xoff yoff pid exp hexp df] at h
  exact optionMapM_map_fst (fun e e2 hu => pairUpdate_key hu) h

theorem pairPhase_nonbirth (xoff yoff : List ℚ) (pid exp : Int)
    (hexp : expectedPid pid = some exp) {df d2 : List (Nat × Row)}
    (hn : (df.map Prod.fst).Nodup) (h : pairPhase xoff yoff pid df = some d2) :
    ∀ e2 ∈ d2, e2.2.particle_id ≠ pid →
      ∃ e ∈ df, e.2.particle_id = e2.2.particle_id ∧ e.2.obs_level = e2.2.obs_level := by
  rw [pairPhase_eq xoff yoff pid exp hexp df] at h
  intro e2 he2 hne
  obtain ⟨e, he, hu⟩ := optionMapM_mem h e2 he2
  refine ⟨e, he, ?_⟩
  have hp := pairUpdate_preserves hu
  cases hc : findRow (pairKeep df pid exp) e.1 with
  | none =>
    rw [pairUpdate_not_matched xoff yoff _ e hc, Option.some_inj] at hu
    subst hu
    exact ⟨rfl, rfl⟩
  | some c =>
    have hk := pairKeep_findRow hn he pid exp
    rw [hc] at hk
    by_cases hpp : e.2.particle_id = pid
    · exact absurd (hp.1.trans hpp) hne
    · rw [if_neg hpp] at hk; exact absurd hk (by simp)

theorem decodePhase_map_fst {zlev xoff yoff : List ℚ} {raw : List RawRow}
    {df : List (Nat × Row)} (h : decodePhase zlev xoff yoff raw = some df) :
    df.map Prod.fst = (dropDuplicates ((List.range raw.length).zip raw)).map Prod.fst := by
  rw [decodePhase_eq, tableMapM_eq] at h
  rw [optionMapM_map_fst (liftUpdate_key (stdUpdate zlev xoff yoff)) h, List.map_map]
  rfl

theorem decodePhase_nodup {zlev xoff yoff : List ℚ} {raw : List RawRow}
    {df : List (Nat × Row)} (h : decodePhase zlev xoff yoff raw = some df) :
    (df.map Prod.fst).Nodup := by
  rw [decodePhase_map_fst h]
  apply List.Nodup.sublist ((dropDuplicatesAux_sublist [] _).map Prod.fst)
  rw [List.map_fst_zip _ _ (by simp)]
  exact List.nodup_range _

theorem decodePhase_rows {zlev xoff yoff : List ℚ} {raw : List RawRow}
    {df : List (Nat × Row)} (h : decodePhase zlev xoff yoff raw = some df) :
    ∀ e ∈ df, 0 ≤ e.2.generation ∧ e.2.fate_index = -1 ∧
      (isStdId e.2.particle_id = false → e.2.obs_level = -1) := by
  rw [decodePhase_eq, tableMapM_eq] at h
  intro e he
  obtain ⟨e0, he0, hf⟩ := optionMapM_mem h e he
  cases hs : stdUpdate zlev xoff yoff e0.2 with
  | none => rw [hs] at hf; exact absurd hf (by simp)
  | some r2 =>
    rw [hs, Option.map_some', Option.some_inj] at hf
    subst hf
    obtain ⟨d, hd, he0d⟩ := List.mem_map.mp he0
    have hfields := stdUpdate_fields hs
    have h0 : e0.2 = initRow d.2 := by rw [← he0d]
    refine ⟨?_, ?_, ?_⟩
    · apply hfields.2.2.2.2.1
      rw [h0]
      exact decodeGenRaw_nonneg d.2.particle_id
    · rw [hfields.2.1, h0]
      rfl
    · intro hstd
      rw [hfields.1] at hstd
      rw [hfields.2.2.2.2.2 hstd, h0]
      rfl

theorem pairPhase_inv (xoff yoff : List ℚ) (pid exp : Int) (hexp : expectedPid pid = some exp)
    (hpid75 : pid = 75 ∨ pid = 76) {df d2 : List (Nat × Row)}
    (hn : (df.map Prod.fst).Nodup) (h : pairPhase xoff yoff pid df = some d2)
    (hinv : ∀ e ∈ df, PairedInv e.2) : ∀ e2 ∈ d2, PairedInv e2.2 := by
  rw [pairPhase_eq xoff yoff pid exp hexp df] at h
  intro e2 he2
  obtain ⟨e, he, hu⟩ := optionMapM_mem h e2 he2
  have hp := pairUpdate_preserves hu
  have hi := hinv e he
  cases hc : findRow (pairKeep df pid exp) e.1 with
  | none =>
    rw [pairUpdate_not_matched xoff yoff _ e hc, Option.some_inj] at hu
    subst hu
    exact hi
  | some c =>
    have hk := pairKeep_findRow hn he pid exp
    rw [hc] at hk
    by_cases hpp : e.2.particle_id = pid
    · refine ⟨?_, ?_, ?_⟩
      · rw [hp.2.1]; exact hi.1
      · rw [hp.2.2.1]; exact hi.2.1
      · intro hcl
        exfalso
        have hep : e2.2.particle_id = pid := hp.1.trans hpp
        rcases hpid75 with h7 | h7
        · exact hcl.2.1 (hep.trans h7)
        · exact hcl.2.2 (hep.trans h7)
    · rw [if_neg hpp] at hk; exact absurd hk (by simp)

theorem fateUpdate_inv {r : Row} (h : PairedInv r) : FinalInv (fateUpdate r) := by
  have hf := fateUpdate_fields r
  refine ⟨hf.2.2.2.2.2.1 h.1, ?_, ?_⟩
  · intro hcl
    rw [hf.2.1]
    apply h.2.2
    rw [hf.1] at hcl
    exact hcl
  · intro hno
    rw [hf.1] at hno
    rw [hf.2.2.2.2.2.2 hno]
    exact h.2.1

theorem muonUpdate_inv {r : Row} (h : FinalInv r) : FinalInv (muonUpdate r) := by
  have hm := muonUpdate_fields r
  refine ⟨?_, ?_, ?_⟩
  · rw [hm.2.2.2.1]; exact h.1
  · intro hcl
    rw [hm.2.1]
    apply h.2.1
    rw [hm.1] at hcl
    exact hcl
  · intro hno
    rw [hm.2.2.1]
    apply h.2.2
    rw [hm.1] at hno
    exact hno

theorem buildParticles_inv {zlev xoff yoff : List ℚ} {raw : List RawRow}
    {out : List (Nat × Row)} (h : buildParticles zlev xoff yoff raw = some out) :
    ∀ e ∈ out, FinalInv e.2 := by
  rw [buildParticles_eq] at h
  cases hd : decodePhase zlev xoff yoff raw with
  | none => rw [hd] at h; exact absurd h (by simp)
  | some d1 =>
    rw [hd, Option.some_bind, postPhases_eq] at h
    cases h75 : pairPhase xoff yoff 75 (tableMap addiUpdate d1) with
    | none => rw [h75] at h; exact absurd h (by simp)
    | some d3 =>
      rw [h75, Option.some_bind] at h
      cases h76 : pairPhase xoff yoff 76 d3 with
      | none => rw [h76] at h; exact absurd h (by simp)
      | some d4 =>
        rw [h76, Option.some_bind, Option.some_inj] at h
        have hn1 : ((tableMap addiUpdate d1).map Prod.fst).Nodup := by
          rw [tableMap_map_fst]
          exact decodePhase_nodup hd
        have hrows1 : ∀ e ∈ tableMap addiUpdate d1, PairedInv e.2 := by
          intro e he
          obtain ⟨d, hdm, he2⟩ := tableMap_mem he
          subst he2
          have hfa := addiUpdate_fields d.2
          have hr := decodePhase_rows hd d hdm
          refine ⟨?_, ?_, ?_⟩
          · rw [hfa.2.1]; exact hr.1
          · rw [hfa.2.2.2.1]; exact hr.2.1
          · intro hcl
            rw [hfa.2.2.1]
            apply hr.2.2
            rw [← hfa.1]
            exact hcl.1
        have hrows3 : ∀ e ∈ d3, PairedInv e.2 :=
          pairPhase_inv xoff yoff 75 5 expectedPid_75 (Or.inl rfl) hn1 h75 hrows1
        have hn3 : (d3.map Prod.fst).Nodup := by
          rw [pairPhase_map_fst xoff yoff 75 5 expectedPid_75 h75]
          exact hn1
        have hrows4 : ∀ e ∈ d4, PairedInv e.2 :=
          pairPhase_inv xoff yoff 76 6 expectedPid_76 (Or.inr rfl) hn3 h76 hrows3
        subst h
        intro e he
        obtain ⟨d5, hd5, he5⟩ := tableMap_mem he
        subst he5
        obtain ⟨d6, hd6, he6⟩ := tableMap_mem hd5
        rw [he6]
        exact muonUpdate_inv (fateUpdate_inv (hrows4 d6 hd6))

/-- C4: death-position rows are never paired: the builder runs the pairing
loop only for ids 75 and 76, so a species 85 row with a valid species 95
companion in the next row still ends with obs_level = -1 (no
companion-derived level information). -/
theorem C4_counterexample :
    ∃ out r, buildParticles [] [] []
        [⟨85003, 0, 0, 0, 0, 0, 1⟩, ⟨95013, 1, 0, 0, 0, 0, 1⟩] = some out ∧
      findRow out 0 = some r ∧ r.particle_id = 85 ∧ r.obs_level = -1 :=
  ⟨_, _, rfl, rfl, by decide, by decide⟩

/-- C4 (amended): for death-position rows (species 85 or 86) the level is
indeed not encoded in generation_raw, but the builder performs no pairing
for them either: every such row of the final table has obs_level = -1 and
fate_index = -1. -/
theorem C4_deathRowsUndetermined (zlev xoff yoff : List ℚ) (raw : List RawRow)
    (out : List (Nat × Row)) (h : buildParticles zlev xoff yoff raw = some out) :
    ∀ e ∈ out, (e.2.particle_id = 85 ∨ e.2.particle_id = 86) →
      e.2.obs_level = -1 ∧ e.2.fate_index = -1 := by
  intro e he hp
  have hi := buildParticles_inv h e he
  constructor
  · exact hi.2.1 ⟨(isStdId_false_iff _).mpr (by omega), by omega, by omega⟩
  · exact hi.2.2 (by omega)

/-- C4 witness: the amended theorem at the concrete two-row table of the
counterexample. -/
theorem C4_deathRowsUndetermined_witness :
    ∃ out, buildParticles [] [] []
        [⟨85003, 0, 0, 0, 0, 0, 1⟩, ⟨95013, 1, 0, 0, 0, 0, 1⟩] = some out ∧
      ∀ e ∈ out, (e.2.particle_id = 85 ∨ e.2.particle_id = 86) →
        e.2.obs_level = -1 ∧ e.2.fate_index = -1 :=
  ⟨_, rfl, C4_deathRowsUndetermined [] [] []
    [⟨85003, 0, 0, 0, 0, 0, 1⟩, ⟨95013, 1, 0, 0, 0, 0, 1⟩] _ rfl⟩

/-- C5: a record decoding to a non-positive species id does not abort the
builder: code -1000 decodes to species -1 and the builder returns a table
containing that row, undecoded (obs_level and fate_index both -1), instead
of failing with UnsupportedSpeciesId. -/
theorem C5_counterexample :
    ∃ out r, buildParticles [] [] [] [⟨-1000, 0, 0, 0, 0, 0, 1⟩] = some out ∧
      findRow out 0 = some r ∧ r.particle_id = -1 ∧
      r.obs_level = -1 ∧ r.fate_index = -1 :=
  ⟨_, _, rfl, rfl, by decide, by decide, by decide⟩

/-- C5 (amended): rows whose decoded species id is non-positive are not
rejected and raise no error on their own account; they stay in the final
table with both obs_level and fate_index undetermined. -/
theorem C5_nonPositiveIdKept (zlev xoff yoff : List ℚ) (raw : List RawRow)
    (out : List (Nat × Row)) (h : buildParticles zlev xoff yoff raw = some out) :
    ∀ e ∈ out, e.2.particle_id ≤ 0 →
      e.2.obs_level = -1 ∧ e.2.fate_index = -1 := by
  intro e he hp
  have hi := buildParticles_inv h e he
  constructor
  · exact hi.2.1 ⟨(isStdId_false_iff _).mpr (by omega), by omega, by omega⟩
  · exact hi.2.2 (by omega)

/-- C5 witness: the amended theorem at the concrete one-row table of the
counterexample. -/
theorem C5_nonPositiveIdKept_witness :
    ∃ out, buildParticles [] [] [] [⟨-1000, 0, 0, 0, 0, 0, 1⟩] = some out ∧
      ∀ e ∈ out, e.2.particle_id ≤ 0 →
        e.2.obs_level = -1 ∧ e.2.fate_index = -1 :=
  ⟨_, rfl, C5_nonPositiveIdKept [] [] [] [⟨-1000, 0, 0, 0, 0, 0, 1⟩] _ (by rfl)⟩

/-- C6: the whole-table invariant fails as stated: a species 85 row (a
class the spec says determines its level through pairing) ends with BOTH
obs_level = -1 and fate_index = -1, so "exactly one" of the two markers
does not hold. -/
theorem C6_counterexample :
    ∃ out r, buildParticles [] [] [] [⟨85003, 0, 0, 0, 0, 0, 1⟩] = some out ∧
      findRow out 0 = some r ∧ r.particle_id = 85 ∧
      r.obs_level = -1 ∧ r.fate_index = -1 :=
  ⟨_, _, rfl, rfl, by decide, by decide, by decide⟩

/-- C6 (amended): every row of the final table has a nonnegative
generation and AT MOST one of observation level or fate index determined:
obs_level = -1 or fate_index = -1 always holds (both hold for species
85/86, unmatched birth rows and out-of-scope ids). -/
theorem C6_rowInvariant (zlev xoff yoff : List ℚ) (raw : List RawRow)
    (out : List (Nat × Row)) (h : buildParticles zlev xoff yoff raw = some out) :
    ∀ e ∈ out, 0 ≤ e.2.generation ∧
      (e.2.obs_level = -1 ∨ e.2.fate_index = -1) := by
  intro e he
  have hi := buildParticles_inv h e he
  refine ⟨hi.1, ?_⟩
  by_cases h95 : 95 ≤ e.2.particle_id ∧ e.2.particle_id ≤ 96
  · left
    exact hi.2.1 ⟨(isStdId_false_iff _).mpr (by omega), by omega, by omega⟩
  · right
    exact hi.2.2 h95

/-- C6 witness: the amended invariant at a concrete three-row table with a
Standard row, a fate row and a non-decoded row. -/
theorem C6_rowInvariant_witness :
    ∃ out, buildParticles [0] [0] [0]
        [⟨6021, 0, 0, 0, 0, 0, 1⟩, ⟨95013, 1, 0, 0, 0, 0, 1⟩, ⟨-1000, 2, 0, 0, 0, 0, 1⟩] =
        some out ∧
      ∀ e ∈ out, 0 ≤ e.2.generation ∧
        (e.2.obs_level = -1 ∨ e.2.fate_index = -1) :=
  ⟨_, rfl, C6_rowInvariant [0] [0] [0]
    [⟨6021, 0, 0, 0, 0, 0, 1⟩, ⟨95013, 1, 0, 0, 0, 0, 1⟩, ⟨-1000, 2, 0, 0, 0, 0, 1⟩] _ (by rfl)⟩

theorem findRow_eq (df : List (Nat × Row)) (i : Nat) :
    findRow df i = (df.find? (fun p => p.1 == i)).map (fun p => p.2) := rfl

theorem pairPhase_find? (xoff yoff : List ℚ) (pid exp : Int) (hexp : expectedPid pid = some exp)
    {df d2 : List (Nat × Row)} (h : pairPhase xoff yoff pid df = some d2) (i : Nat) :
    d2.find? (fun p => p.1 == i) =
      (df.find? (fun p => p.1 == i)).bind (pairUpdate xoff yoff (pairKeep df pid exp)) := by
  rw [pairPhase_eq xoff yoff pid exp hexp df] at h
  exact optionMapM_find? (fun _ _ hh => pairUpdate_key hh) h i

theorem postPhases_total (xoff yoff : List ℚ) (df : List (Nat × Row))
    (hn : (df.map Prod.fst).Nodup)
    (hlev : ∀ e ∈ df, (e.2.particle_id = 5 ∨ e.2.particle_id = 6) →
      1 ≤ e.2.obs_level ∧ e.2.obs_level ≤ (xoff.length : Int) ∧
        e.2.obs_level ≤ (yoff.length : Int)) :
    ∃ d3 d4, pairPhase xoff yoff 75 df = some d3 ∧ pairPhase xoff yoff 76 d3 = some d4 ∧
      (d3.map Prod.fst).Nodup ∧
      postPhases xoff yoff df = some (tableMap muonUpdate (tableMap fateUpdate d4)) := by
  obtain ⟨d3, h3⟩ := pairPhase_total xoff yoff 75 5 expectedPid_75 (Or.inl rfl) df hn hlev
  have hn3 : (d3.map Prod.fst).Nodup := by
    rw [pairPhase_map_fst xoff yoff 75 5 expectedPid_75 h3]
    exact hn
  have hlev3 : ∀ e ∈ d3, (e.2.particle_id = 5 ∨ e.2.particle_id = 6) →
      1 ≤ e.2.obs_level ∧ e.2.obs_level ≤ (xoff.length : Int) ∧
        e.2.obs_level ≤ (yoff.length : Int) := by
    intro e he hp
    obtain ⟨e0, he0, hpe, hoe⟩ := pairPhase_nonbirth xoff yoff 75 5 expectedPid_75 hn h3 e he
      (by rcases hp with h5 | h5 <;> omega)
    have hb := hlev e0 he0 (by rw [hpe]; exact hp)
    rw [hoe] at hb
    exact hb
  obtain ⟨d4, h4⟩ := pairPhase_total xoff yoff 76 6 expectedPid_76 (Or.inr rfl) d3 hn3 hlev3
  exact ⟨d3, d4, h3, h4, hn3,
    by rw [postPhases_eq, h3, Option.some_bind, h4, Option.some_bind]⟩

/-- C3 (confirmed): over any deduplicated decoded table in which every
birth row of species 75 is immediately followed by a row of decoded
species 5 whose observation level is within the configured offsets,
pairing resolution for species 75 reports zero dropped rows, the
remaining passes raise nothing, and every birth row ends with its
companion's obs_level, its x and y reduced by that level's offset pair,
and its z unchanged from the value the additional-muon-info branch set. -/
theorem C3_pairingCompleteness (xoff yoff : List ℚ) (df : List (Nat × Row))
    (hn : (df.map Prod.fst).Nodup)
    (h75 : ∀ e ∈ df, e.2.particle_id = 75 →
      (findRow df (e.1 + 1)).map Row.particle_id = some 5)
    (hlev : ∀ e ∈ df, (e.2.particle_id = 5 ∨ e.2.particle_id = 6) →
      1 ≤ e.2.obs_level ∧ e.2.obs_level ≤ (xoff.length : Int) ∧
        e.2.obs_level ≤ (yoff.length : Int)) :
    (∃ keep, findPairedData df 75 = some (keep, [])) ∧
    ∃ out, postPhases xoff yoff df = some out ∧
      ∀ e ∈ df, e.2.particle_id = 75 → ∀ c, findRow df (e.1 + 1) = some c →
        ∃ a b r2, npGet xoff (c.obs_level - 1) = some a ∧
          npGet yoff (c.obs_level - 1) = some b ∧
          findRow out e.1 = some r2 ∧ r2.obs_level = c.obs_level ∧
          r2.x = e.2.x - a ∧ r2.y = e.2.y - b ∧ r2.z = e.2.z := by
  constructor
  · refine ⟨pairKeep df 75 5, ?_⟩
    have hd : pairDrop df 75 5 = [] := pairDrop_nil h75
    rw [← hd]
    rfl
  · obtain ⟨d3, d4, h3, h4, hn3, hpost⟩ := postPhases_total xoff yoff df hn hlev
    refine ⟨tableMap muonUpdate (tableMap fateUpdate d4), hpost, ?_⟩
    intro e he hpid c hc
    obtain ⟨e2, he2, _, he2c⟩ := findRow_mem hc
    have hcpid : c.particle_id = 5 := by
      have hm := h75 e he hpid
      rw [hc, Option.map_some', Option.some_inj] at hm
      exact hm
    have hb := hlev e2 he2 (by rw [he2c]; exact Or.inl hcpid)
    rw [he2c] at hb
    obtain ⟨a, ha⟩ := npGet_isSome hb.1 hb.2.1
    obtain ⟨b, hbv⟩ := npGet_isSome hb.1 hb.2.2
    have hkeep : findRow (pairKeep df 75 5) e.1 = some c := by
      rw [pairKeep_findRow hn he 75 5, if_pos hpid, hc]
      dsimp only
      rw [if_pos hcpid]
    obtain ⟨r3, hu75, hr3o, hr3x, hr3y, hr3z, hr3p⟩ :
        ∃ r3, pairUpdate xoff yoff (pairKeep df 75 5) e = some (e.1, r3) ∧
          r3.obs_level = c.obs_level ∧ r3.x = e.2.x - a ∧ r3.y = e.2.y - b ∧
          r3.z = e.2.z ∧ r3.particle_id = e.2.particle_id :=
      ⟨_, pairUpdate_matched hkeep ha hbv, rfl, rfl, rfl, rfl, rfl⟩
    have hr3pid : r3.particle_id = 75 := hr3p.trans hpid
    have hfind3 : d3.find? (fun p => p.1 == e.1) = some (e.1, r3) := by
      rw [pairPhase_find? xoff yoff 75 5 expectedPid_75 h3 e.1,
        find?_key_of_mem hn he, Option.some_bind, hu75]
    have hmem3 : (e.1, r3) ∈ d3 := List.mem_of_find?_eq_some hfind3
    have hkeep76 : findRow (pairKeep d3 76 6) (e.1, r3).1 = none := by
      rw [pairKeep_findRow hn3 hmem3 76 6,
        if_neg (show ¬((e.1, r3).2.particle_id = 76) from fun h7 =>
          absurd (hr3pid.symm.trans h7) (by decide))]
    have hfind4 : d4.find? (fun p => p.1 == e.1) = some (e.1, r3) := by
      rw [pairPhase_find? xoff yoff 76 6 expectedPid_76 h4 e.1, hfind3, Option.some_bind,
        pairUpdate_not_matched xoff yoff (pairKeep d3 76 6) (e.1, r3) hkeep76]
    have hfr3 : fateUpdate r3 = r3 :=
      (fateUpdate_fields r3).2.2.2.2.2.2 (by rw [hr3pid]; decide)
    have hout : findRow (tableMap muonUpdate (tableMap fateUpdate d4)) e.1 =
        some (muonUpdate (fateUpdate r3)) := by
      rw [findRow_eq, tableMap_find?, tableMap_find?, hfind4, Option.map_some',
        Option.map_some', Option.map_some']
    refine ⟨a, b, muonUpdate (fateUpdate r3), ha, hbv, hout, ?_, ?_, ?_, ?_⟩
    · rw [(muonUpdate_fields (fateUpdate r3)).2.1, hfr3, hr3o]
    · rw [(muonUpdate_fields (fateUpdate r3)).2.2.2.2.1, hfr3, hr3x]
    · rw [(muonUpdate_fields (fateUpdate r3)).2.2.2.2.2.1, hfr3, hr3y]
    · rw [(muonUpdate_fields (fateUpdate r3)).2.2.2.2.2.2, hfr3, hr3z]

/-- C3 witness: a two-row table (birth muon at index 0, its species 5
companion at index 1 on level 1) with one configured offset pair. -/
theorem C3_pairingCompleteness_witness :
    (∃ keep, findPairedData
        [(0, ⟨75, 0, 0, 1, 2, none, 1, some 3, -1, -1, 101, false⟩),
         (1, ⟨5, 1, 0, 4, 6, none, 1, some 5, 1, -1, 10, false⟩)] 75 = some (keep, [])) ∧
    ∃ out, postPhases [7] [9]
        [(0, ⟨75, 0, 0, 1, 2, none, 1, some 3, -1, -1, 101, false⟩),
         (1, ⟨5, 1, 0, 4, 6, none, 1, some 5, 1, -1, 10, false⟩)] = some out ∧
      ∀ e ∈ ([(0, ⟨75, 0, 0, 1, 2, none, 1, some 3, -1, -1, 101, false⟩),
         (1, ⟨5, 1, 0, 4, 6, none, 1, some 5, 1, -1, 10, false⟩)] :
           List (Nat × Row)), e.2.particle_id = 75 →
        ∀ c, findRow [(0, ⟨75, 0, 0, 1, 2, none, 1, some 3, -1, -1, 101, false⟩),
         (1, ⟨5, 1, 0, 4, 6, none, 1, some 5, 1, -1, 10, false⟩)] (e.1 + 1) = some c →
        ∃ a b r2, npGet [7] (c.obs_level - 1) = some a ∧
          npGet [9] (c.obs_level - 1) = some b ∧
          findRow out e.1 = some r2 ∧ r2.obs_level = c.obs_level ∧
          r2.x = e.2.x - a ∧ r2.y = e.2.y - b ∧ r2.z = e.2.z :=
  C3_pairingCompleteness [7] [9]
    [(0, ⟨75, 0, 0, 1, 2, none, 1, some 3, -1, -1, 101, false⟩),
     (1, ⟨5, 1, 0, 4, 6, none, 1, some 5, 1, -1, 10, false⟩)]
    (by decide) (by decide) (by decide)

/-- C1: a birth-muon row without a valid companion is NOT excluded from
the final particle table: a single species 75 row (no following row at
all) survives the whole builder and is returned with obs_level = -1. -/
theorem C1_counterexample :
    ∃ out r, buildParticles [] [] [] [⟨75101, 0, 0, 0, 0, 0, 1⟩] = some out ∧
      findRow out 0 = some r ∧ r.particle_id = 75 ∧ r.obs_level = -1 :=
  ⟨_, _, rfl, rfl, by decide, by decide⟩

theorem optionMapM_forall_isSome {α : Type u} {β : Type v} {f : α → Option β} :
    ∀ {l : List α} {l2 : List β}, optionMapM f l = some l2 → ∀ a ∈ l, (f a).isSome = true
  | [], _, _ => fun a ha => absurd ha (List.not_mem_nil a)
  | a :: l, l2, h => by
    rw [optionMapM_cons] at h
    cases hfa : f a with
    | none => rw [hfa] at h; simp at h
    | some b0 =>
      rw [hfa] at h
      cases hml : optionMapM f l with
      | none => rw [hml] at h; simp at h
      | some t2 =>
        intro x hx
        rcases List.mem_cons.mp hx with rfl | hx2
        · rw [hfa]; rfl
        · exact optionMapM_forall_isSome hml x hx2

theorem pairPhase_findRow_pid (xoff yoff : List ℚ) (pid exp : Int)
    (hexp : expectedPid pid = some exp) {df d2 : List (Nat × Row)}
    (h : pairPhase xoff yoff pid df = some d2) (j : Nat) :
    (findRow d2 j).map Row.particle_id = (findRow df j).map Row.particle_id := by
  have h2 := h
  rw [pairPhase_eq xoff yoff pid exp hexp df] at h2
  rw [findRow_eq, findRow_eq, pairPhase_find? xoff yoff pid exp hexp h j]
  cases hf : df.find? (fun p => p.1 == j) with
  | none => rfl
  | some e =>
    rw [Option.some_bind]
    obtain ⟨e2, hu⟩ := Option.isSome_iff_exists.mp
      (optionMapM_forall_isSome h2 e (List.mem_of_find?_eq_some hf))
    rw [hu, Option.map_some', Option.map_some', Option.map_some', Option.map_some',
      (pairUpdate_preserves hu).1]

/-- C1 (amended): for a birth-muon row (species 75 or 76) whose following
row is missing or has the wrong decoded species id, processing never
raises, the companion position (row index + 1) is reported in the
dropped-index diagnostic of that species' pairing pass (species 75 runs
against the decoded table, species 76 against the table the 75-pass
produced), and the row REMAINS in the final table with its obs_level, x,
y and z unchanged (it is not excluded). -/
theorem C1_unmatchedBirthKept (xoff yoff : List ℚ) (df : List (Nat × Row)) (i : Nat) (r : Row)
    (hn : (df.map Prod.fst).Nodup)
    (hi : findRow df i = some r)
    (hpid : r.particle_id = 75 ∨ r.particle_id = 76)
    (hbad : (findRow df (i + 1)).map Row.particle_id ≠ some (r.particle_id - 70))
    (hlev : ∀ e ∈ df, (e.2.particle_id = 5 ∨ e.2.particle_id = 6) →
      1 ≤ e.2.obs_level ∧ e.2.obs_level ≤ (xoff.length : Int) ∧
        e.2.obs_level ≤ (yoff.length : Int)) :
    (∃ keep drop,
      ((r.particle_id = 75 ∧ findPairedData df 75 = some (keep, drop) ∧ (i + 1) ∈ drop) ∨
       (∃ d3, r.particle_id = 76 ∧ pairPhase xoff yoff 75 df = some d3 ∧
         findPairedData d3 76 = some (keep, drop) ∧ (i + 1) ∈ drop))) ∧
    ∃ out, postPhases xoff yoff df = some out ∧
      ∃ r2, findRow out i = some r2 ∧ r2.particle_id = r.particle_id ∧
        r2.obs_level = r.obs_level ∧ r2.x = r.x ∧ r2.y = r.y ∧ r2.z = r.z := by
  obtain ⟨e, he, hei, her⟩ := findRow_mem hi
  subst hei
  subst her
  obtain ⟨d3, d4, h3, h4, hn3, hpost⟩ := postPhases_total xoff yoff df hn hlev
  have hkeepn75 : findRow (pairKeep df 75 5) e.1 = none := by
    rw [pairKeep_findRow hn he 75 5]
    rcases hpid with h7 | h7
    · rw [if_pos h7]
      cases hfr : findRow df (e.1 + 1) with
      | none => rfl
      | some c =>
        dsimp only
        rw [if_neg (show ¬(c.particle_id = 5) from fun hce =>
          hbad (by rw [hfr, Option.map_some', hce, h7]; norm_num))]
    · rw [if_neg (show ¬(e.2.particle_id = 75) from by omega)]
  have hfind3 : d3.find? (fun p => p.1 == e.1) = some e := by
    rw [pairPhase_find? xoff yoff 75 5 expectedPid_75 h3 e.1,
      find?_key_of_mem hn he, Option.some_bind,
      pairUpdate_not_matched xoff yoff (pairKeep df 75 5) e hkeepn75]
  have hmem3 : e ∈ d3 := List.mem_of_find?_eq_some hfind3
  have htrans : (findRow d3 (e.1 + 1)).map Row.particle_id =
      (findRow df (e.1 + 1)).map Row.particle_id :=
    pairPhase_findRow_pid xoff yoff 75 5 expectedPid_75 h3 (e.1 + 1)
  have hkeepn76 : findRow (pairKeep d3 76 6) e.1 = none := by
    rw [pairKeep_findRow hn3 hmem3 76 6]
    rcases hpid with h7 | h7
    · rw [if_neg (show ¬(e.2.particle_id = 76) from by omega)]
    · rw [if_pos h7]
      cases hfr : findRow d3 (e.1 + 1) with
      | none => rfl
      | some c =>
        dsimp only
        rw [if_neg (show ¬(c.particle_id = 6) from fun hce =>
          hbad (by rw [← htrans, hfr, Option.map_some', hce, h7]; norm_num))]
  have hfind4 : d4.find? (fun p => p.1 == e.1) = some e := by
    rw [pairPhase_find? xoff yoff 76 6 expectedPid_76 h4 e.1, hfind3, Option.some_bind,
      pairUpdate_not_matched xoff yoff (pairKeep d3 76 6) e hkeepn76]
  constructor
  · rcases hpid with h7 | h7
    · exact ⟨pairKeep df 75 5, pairDrop df 75 5, Or.inl ⟨h7, rfl,
        pairDrop_mem he h7 (fun hc => hbad (by rw [hc, h7]; norm_num))⟩⟩
    · exact ⟨pairKeep d3 76 6, pairDrop d3 76 6, Or.inr ⟨d3, h7, h3, rfl,
        pairDrop_mem hmem3 h7 (fun hc => hbad (by rw [← htrans, hc, h7]; norm_num))⟩⟩
  · have hfr : fateUpdate e.2 = e.2 :=
      (fateUpdate_fields e.2).2.2.2.2.2.2 (by rcases hpid with h7 | h7 <;> omega)
    have hout : findRow (tableMap muonUpdate (tableMap fateUpdate d4)) e.1 =
        some (muonUpdate (fateUpdate e.2)) := by
      rw [findRow_eq, tableMap_find?, tableMap_find?, hfind4, Option.map_some',
        Option.map_some', Option.map_some']
    refine ⟨tableMap muonUpdate (tableMap fateUpdate d4), hpost,
      muonUpdate (fateUpdate e.2), hout, ?_, ?_, ?_, ?_, ?_⟩
    · rw [(muonUpdate_fields (fateUpdate e.2)).1, hfr]
    · rw [(muonUpdate_fields (fateUpdate e.2)).2.1, hfr]
    · rw [(muonUpdate_fields (fateUpdate e.2)).2.2.2.2.1, hfr]
    · rw [(muonUpdate_fields (fateUpdate e.2)).2.2.2.2.2.1, hfr]
    · rw [(muonUpdate_fields (fateUpdate e.2)).2.2.2.2.2.2, hfr]

/-- C1 witness: a two-row table holding an unmatched species 76 birth row
at index 0 (its following row has species 75, not the expected 6) and an
unmatched species 75 birth row at index 1 (no following row at all); the
theorem is applied to each. -/
theorem C1_unmatchedBirthKept_witness :
    ((∃ keep drop,
      (((76 : Int) = 75 ∧ findPairedData
          [(0, ⟨76, 0, 0, 1, 2, none, 1, some 3, -1, -1, 101, false⟩),
           (1, ⟨75, 1, 0, 4, 6, none, 1, some 3, -1, -1, 102, false⟩)] 75 =
          some (keep, drop) ∧ (0 + 1) ∈ drop) ∨
       (∃ d3, (76 : Int) = 76 ∧ pairPhase [] [] 75
          [(0, ⟨76, 0, 0, 1, 2, none, 1, some 3, -1, -1, 101, false⟩),
           (1, ⟨75, 1, 0, 4, 6, none, 1, some 3, -1, -1, 102, false⟩)] = some d3 ∧
         findPairedData d3 76 = some (keep, drop) ∧ (0 + 1) ∈ drop))) ∧
    ∃ out, postPhases [] []
        [(0, ⟨76, 0, 0, 1, 2, none, 1, some 3, -1, -1, 101, false⟩),
         (1, ⟨75, 1, 0, 4, 6, none, 1, some 3, -1, -1, 102, false⟩)] = some out ∧
      ∃ r2, findRow out 0 = some r2 ∧ r2.particle_id = 76 ∧
        r2.obs_level = -1 ∧ r2.x = 1 ∧ r2.y = 2 ∧ r2.z = some 3) ∧
    ((∃ keep drop,
      (((75 : Int) = 75 ∧ findPairedData
          [(0, ⟨76, 0, 0, 1, 2, none, 1, some 3, -1, -1, 101, false⟩),
           (1, ⟨75, 1, 0, 4, 6, none, 1, some 3, -1, -1, 102, false⟩)] 75 =
          some (keep, drop) ∧ (1 + 1) ∈ drop) ∨
       (∃ d3, (75 : Int) = 76 ∧ pairPhase [] [] 75
          [(0, ⟨76, 0, 0, 1, 2, none, 1, some 3, -1, -1, 101, false⟩),
           (1, ⟨75, 1, 0, 4, 6, none, 1, some 3, -1, -1, 102, false⟩)] = some d3 ∧
         findPairedData d3 76 = some (keep, drop) ∧ (1 + 1) ∈ drop))) ∧
    ∃ out, postPhases [] []
        [(0, ⟨76, 0, 0, 1, 2, none, 1, some 3, -1, -1, 101, false⟩),
         (1, ⟨75, 1, 0, 4, 6, none, 1, some 3, -1, -1, 102, false⟩)] = some out ∧
      ∃ r2, findRow out 1 = some r2 ∧ r2.particle_id = 75 ∧
        r2.obs_level = -1 ∧ r2.x = 4 ∧ r2.y = 6 ∧ r2.z = some 3) :=
  ⟨C1_unmatchedBirthKept [] []
      [(0, ⟨76, 0, 0, 1, 2, none, 1, some 3, -1, -1, 101, false⟩),
       (1, ⟨75, 1, 0, 4, 6, none, 1, some 3, -1, -1, 102, false⟩)] 0
      ⟨76, 0, 0, 1, 2, none, 1, some 3, -1, -1, 101, false⟩
      (by decide) (by decide) (by decide) (by decide) (by decide),
   C1_unmatchedBirthKept [] []
      [(0, ⟨76, 0, 0, 1, 2, none, 1, some 3, -1, -1, 101, false⟩),
       (1, ⟨75, 1, 0, 4, 6, none, 1, some 3, -1, -1, 102, false⟩)] 1
      ⟨75, 1, 0, 4, 6, none, 1, some 3, -1, -1, 102, false⟩
      (by decide) (by decide) (by decide) (by decide) (by decide)⟩
